import Mathlib

set_option maxRecDepth 100000

/-!
A shallow embedding of the DFU container parser implemented in
`dfu-bin-extractor.py` (class `DFUParser`), together with theorems that
check the natural-language specification's claims against it.

Byte buffers are modelled as `List Nat` (one entry per byte).  Python
byte-string slicing (which clamps at the ends and never fails) is
modelled by `slice`; Python single-byte indexing (which raises
`IndexError` out of range) by `pyIndex`; `struct.unpack` (which raises
`struct.error` unless the buffer has exactly the required size) by
`unpackLE16` / `unpackLE32`.  Exceptions are modelled by `Except PyError`.
-/

namespace DFU

/-- A byte buffer, modelled as a list of natural numbers (one per byte). -/
abbrev Bytes := List Nat

/-- `DFU_SUFFIX_LENGTH` from the source. -/
def DFU_SUFFIX_LENGTH : Nat := 16

/-- `DFU_PREFIX_LENGTH` from the source. -/
def DFU_PREFIX_LENGTH : Nat := 11

/-- The ASCII bytes of the byte string b"DfuSe". -/
def bDfuSe : Bytes := [68, 102, 117, 83, 101]

/-- The ASCII bytes of the byte string b"Target". -/
def bTarget : Bytes := [84, 97, 114, 103, 101, 116]

/-- The ASCII bytes of the byte string b"UFD". -/
def bUFD : Bytes := [85, 70, 68]

/-- The exceptions the parser can raise.  Each constructor corresponds to
one `raise` site (the `ValueError`s of the source) or to a Python runtime
error reachable from the parsing code (`IndexError` from out-of-range
byte indexing, `struct.error` from `struct.unpack` on a wrong-sized
buffer). -/
inductive PyError where
  | suffixTooSmall
  | invalidDfuSignature
  | prefixTooSmall
  | invalidTargetSignature (offset : Nat)
  | indexError
  | structError
  deriving DecidableEq

/-- Python slice `data[a:b]` for `0 ≤ a ≤ b`: clamps at the end of the
buffer and never fails. -/
def slice (data : Bytes) (a b : Nat) : Bytes := (data.drop a).take (b - a)

/-- Python indexing `data[i]` on a byte string: the byte at `i`, or
`IndexError` when `i` is out of range. -/
def pyIndex (data : Bytes) (i : Nat) : Except PyError Nat :=
  match data[i]? with
  | some b => .ok b
  | none => .error .indexError

/-- Python `struct.unpack("<H", b)[0]`: requires exactly 2 bytes,
decodes them as a little-endian 16-bit integer. -/
def unpackLE16 (b : Bytes) : Except PyError Nat :=
  if b.length = 2 then .ok (b.getD 0 0 + 256 * b.getD 1 0)
  else .error .structError

/-- Python `struct.unpack("<I", b)[0]`: requires exactly 4 bytes,
decodes them as a little-endian 32-bit integer. -/
def unpackLE32 (b : Bytes) : Except PyError Nat :=
  if b.length = 4 then
    .ok (b.getD 0 0 + 256 * b.getD 1 0 + 65536 * b.getD 2 0 + 16777216 * b.getD 3 0)
  else .error .structError

/-- Python `b.rstrip(b"\x00")`: drops trailing zero bytes. -/
def rstripNul (b : Bytes) : Bytes := (b.reverse.dropWhile fun x => x = 0).reverse

/-- The record built by `DFUParser.parse_suffix`. -/
structure Suffix where
  bcdDevice : Nat
  idProduct : Nat
  idVendor : Nat
  bcdDFU : Nat
  ucDfuSignature : Bytes
  bLength : Nat
  dwCRC : Nat
  deriving DecidableEq

/-- The record built by `DFUParser.parse_prefix`. -/
structure PrefixRec where
  szSignature : Bytes
  bVersion : Nat
  dwImageSize : Nat
  bTargets : Nat
  deriving DecidableEq

/-- The field-decoding body of `DFUParser.parse_suffix`, applied to the
16-byte slice `suffix_data = dfu_data[-16:]`: decodes the seven suffix
fields in source order, then rejects a signature other than b"UFD". -/
def parse_suffix_fields (suffix_data : Bytes) : Except PyError Suffix :=
  (unpackLE16 (slice suffix_data 0 2)).bind fun bcdDevice =>
  (unpackLE16 (slice suffix_data 2 4)).bind fun idProduct =>
  (unpackLE16 (slice suffix_data 4 6)).bind fun idVendor =>
  (unpackLE16 (slice suffix_data 6 8)).bind fun bcdDFU =>
  (pyIndex suffix_data 11).bind fun bLength =>
  (unpackLE32 (slice suffix_data 12 16)).bind fun dwCRC =>
  if slice suffix_data 8 11 ≠ bUFD then
    .error .invalidDfuSignature
  else
    .ok { bcdDevice := bcdDevice, idProduct := idProduct, idVendor := idVendor,
          bcdDFU := bcdDFU, ucDfuSignature := slice suffix_data 8 11,
          bLength := bLength, dwCRC := dwCRC }

/-- `DFUParser.parse_suffix`: checks the length, reads the last 16 bytes,
decodes the suffix fields and checks the signature. -/
def parse_suffix (dfu_data : Bytes) : Except PyError Suffix :=
  if dfu_data.length < DFU_SUFFIX_LENGTH then
    .error .suffixTooSmall
  else
    parse_suffix_fields (dfu_data.drop (dfu_data.length - DFU_SUFFIX_LENGTH))

/-- The field-decoding body of `DFUParser.parse_prefix`, applied to the
11-byte slice `prefix_data = dfu_data[:11]`: decodes the four fields in
source order and returns `none` ("absent") when the signature is not
b"DfuSe". -/
def parse_prefix_fields (prefix_data : Bytes) : Except PyError (Option PrefixRec) :=
  (pyIndex prefix_data 5).bind fun bVersion =>
  (unpackLE32 (slice prefix_data 6 10)).bind fun dwImageSize =>
  (pyIndex prefix_data 10).bind fun bTargets =>
  if slice prefix_data 0 5 ≠ bDfuSe then
    .ok none
  else
    .ok (some { szSignature := slice prefix_data 0 5, bVersion := bVersion,
                dwImageSize := dwImageSize, bTargets := bTargets })

/-- `DFUParser.parse_prefix`: checks the length against prefix + suffix,
reads the first 11 bytes and decodes them. -/
def parse_prefix (dfu_data : Bytes) : Except PyError (Option PrefixRec) :=
  if dfu_data.length < DFU_PREFIX_LENGTH + DFU_SUFFIX_LENGTH then
    .error .prefixTooSmall
  else
    parse_prefix_fields (dfu_data.take DFU_PREFIX_LENGTH)

/-- `DFUParser.extract_raw_binary`: Python `self.dfu_data[:-16]`, the
buffer with its last 16 bytes stripped (empty when the buffer has at
most 16 bytes, by Python slice clamping). -/
def extract_raw_binary (dfu_data : Bytes) : Bytes :=
  dfu_data.take (dfu_data.length - DFU_SUFFIX_LENGTH)

/-- The inner element loop of `DFUParser.extract_dfuse_targets`
(`for j in range(nb_elements)`).  Reads a 4-byte little-endian address
and a 4-byte little-endian size at `offset`, advances by 8, slices
`size` payload bytes, advances by `size`, and appends
`(address, payload)` to the accumulated result; returns the final
offset together with the accumulated list. -/
def extract_elements (dfu_data : Bytes) :
    Nat → Nat → List (Nat × Bytes) → Except PyError (Nat × List (Nat × Bytes))
  | 0, offset, acc => .ok (offset, acc)
  | n + 1, offset, acc =>
    (unpackLE32 (slice dfu_data offset (offset + 4))).bind fun element_addr =>
    (unpackLE32 (slice dfu_data (offset + 4) (offset + 8))).bind fun element_size =>
    extract_elements dfu_data n (offset + 8 + element_size)
      (acc ++ [(element_addr, slice dfu_data (offset + 8) (offset + 8 + element_size))])

/-- The outer target loop of `DFUParser.extract_dfuse_targets`
(`for i in range(prefix["bTargets"])`).  Slices a 274-byte target
header at `offset`, rejects a header whose first 6 bytes are not
b"Target" (carrying `offset`), decodes the header fields exactly as the
source does (`alternate_setting` by single-byte indexing, the name with
`rstrip`, `target_size` and `nb_elements` with `struct.unpack`),
advances by 274, and runs the element loop before the next target. -/
def extract_targets_loop (dfu_data : Bytes) :
    Nat → Nat → List (Nat × Bytes) → Except PyError (List (Nat × Bytes))
  | 0, _, acc => .ok acc
  | n + 1, offset, acc =>
    let target_pfx := slice dfu_data offset (offset + 274)
    if slice target_pfx 0 6 ≠ bTarget then
      .error (.invalidTargetSignature offset)
    else
      (pyIndex target_pfx 6).bind fun _alternate_setting =>
      let _target_name := rstripNul (slice target_pfx 11 266)
      (unpackLE32 (slice target_pfx 266 270)).bind fun _target_size =>
      (unpackLE32 (slice target_pfx 270 274)).bind fun nb_elements =>
      (extract_elements dfu_data nb_elements (offset + 274) acc).bind fun r =>
      extract_targets_loop dfu_data n r.1 r.2

/-- `DFUParser.extract_dfuse_targets`: parses the prefix (propagating
its exceptions), returns `[]` when the prefix is absent, and otherwise
walks `bTargets` target records starting at offset 11. -/
def extract_dfuse_targets (dfu_data : Bytes) : Except PyError (List (Nat × Bytes)) :=
  match parse_prefix dfu_data with
  | .error e => .error e
  | .ok none => .ok []
  | .ok (some pr) => extract_targets_loop dfu_data pr.bTargets DFU_PREFIX_LENGTH []

/-- `DFUParser.extract`: dispatches on the first 5 bytes of the buffer. -/
def extract (dfu_data : Bytes) : Except PyError (List (Nat × Bytes)) :=
  if dfu_data.take 5 = bDfuSe then
    extract_dfuse_targets dfu_data
  else
    .ok [(0, extract_raw_binary dfu_data)]

/-- Little-endian serialisation of a 32-bit quantity, the inverse of
`unpackLE32` on values below `2^32`.  Used to describe well-formed DfuSe
buffers when stating claims about the target walk. -/
def encodeLE32 (n : Nat) : Bytes :=
  [n % 256, n / 256 % 256, n / 65536 % 256, n / 16777216 % 256]

/-- An element record as laid out in a DfuSe file: 4-byte little-endian
address, 4-byte little-endian size, then the payload itself. -/
def encodeElement (addr : Nat) (payload : Bytes) : Bytes :=
  encodeLE32 addr ++ encodeLE32 payload.length ++ payload

/-- The serialisation of a list of element records. -/
def encodeElems (es : List (Nat × Bytes)) : Bytes :=
  (es.map fun e => encodeElement e.1 e.2).flatten

/-- The description of one target of a DfuSe file: the 260 header bytes
between the signature and the size field (altSetting, reserved and name,
at header offsets 6 to 265), the declared target size, and the list of
(address, payload) elements. -/
structure TargetSpec where
  mid : Bytes
  tsize : Nat
  elems : List (Nat × Bytes)
  deriving DecidableEq

/-- A target record as laid out in a DfuSe file: 6-byte b"Target"
signature, 260 middle bytes, 4-byte little-endian declared size, 4-byte
little-endian element count, then the element records. -/
def encodeTarget (t : TargetSpec) : Bytes :=
  bTarget ++ t.mid ++ encodeLE32 t.tsize ++ encodeLE32 t.elems.length ++ encodeElems t.elems

/-- The serialisation of a list of target records. -/
def encodeTargets (ts : List TargetSpec) : Bytes :=
  (ts.map encodeTarget).flatten

/-- A well-formed DfuSe buffer: 11-byte prefix (signature, version byte,
4-byte little-endian image size, target-count byte), the target records,
and arbitrary trailing bytes `rest` (in a real file, the 16-byte DFU
suffix). -/
def encodeDfuSe (vb imgSize : Nat) (ts : List TargetSpec) (rest : Bytes) : Bytes :=
  bDfuSe ++ [vb] ++ encodeLE32 imgSize ++ [ts.length] ++ encodeTargets ts ++ rest

/-- All elements of a list of targets, concatenated in file order. -/
def flatElems (ts : List TargetSpec) : List (Nat × Bytes) :=
  (ts.map fun t => t.elems).flatten

/-- Well-formedness of the geometry fields of a target list: each
element count and each element's address and declared size fit in 32
bits (in a real byte file they always do), and each middle-byte block
has its fixed length 260. -/
def WFTargets (ts : List TargetSpec) : Prop :=
  ∀ t ∈ ts, t.mid.length = 260 ∧ t.elems.length < 4294967296 ∧
    ∀ e ∈ t.elems, e.1 < 4294967296 ∧ e.2.length < 4294967296

instance : DecidablePred WFTargets := fun ts => by
  unfold WFTargets; infer_instance

end DFU

namespace DFU

/-- Claim C1: for every buffer of length `L ≥ 16` whose first 5 bytes are
not b"DfuSe", `extract` returns exactly one pair `(0, buffer[0 : L-16])`:
the input with the trailing 16-byte suffix stripped, at address 0. -/
theorem plain_dfu_extract_strips_suffix (data : Bytes) (h16 : 16 ≤ data.length)
    (hsig : data.take 5 ≠ bDfuSe) :
    extract data = .ok [(0, data.take (data.length - 16))] := by
  unfold extract
  rw [if_neg hsig]
  rfl

/-- Witness for C1 on a concrete 19-byte buffer: the result is the first
3 bytes at address 0. -/
theorem plain_dfu_extract_strips_suffix_witness :
    16 ≤ ([1, 2, 3, 0, 0, 0, 0, 0, 0, 0, 0, 0, 0, 0, 0, 0, 0, 0, 0] : Bytes).length ∧
    ([1, 2, 3, 0, 0, 0, 0, 0, 0, 0, 0, 0, 0, 0, 0, 0, 0, 0, 0] : Bytes).take 5 ≠ bDfuSe ∧
    extract [1, 2, 3, 0, 0, 0, 0, 0, 0, 0, 0, 0, 0, 0, 0, 0, 0, 0, 0] = .ok [(0, [1, 2, 3])] :=
  ⟨by decide, by decide,
    plain_dfu_extract_strips_suffix [1, 2, 3, 0, 0, 0, 0, 0, 0, 0, 0, 0, 0, 0, 0, 0, 0, 0, 0]
      (by decide) (by decide)⟩

/-- Claim C8: `extract` dispatches on the first 5 bytes only — when they
equal b"DfuSe" it returns the DfuSe target walk, otherwise the raw
extraction — and, the embedding being a pure function of the buffer,
calling it twice on the same buffer yields identical results. -/
theorem extract_dispatch (data : Bytes) :
    (data.take 5 = bDfuSe → extract data = extract_dfuse_targets data) ∧
    (data.take 5 ≠ bDfuSe → extract data = .ok [(0, extract_raw_binary data)]) ∧
    extract data = extract data := by
  refine ⟨fun h => ?_, fun h => ?_, rfl⟩
  · unfold extract; rw [if_pos h]
  · unfold extract; rw [if_neg h]

/-- Witness for C8: both dispatch arms at concrete buffers. -/
theorem extract_dispatch_witness :
    (([68, 102, 117, 83, 101, 9] : Bytes).take 5 = bDfuSe ∧
      extract [68, 102, 117, 83, 101, 9] = extract_dfuse_targets [68, 102, 117, 83, 101, 9]) ∧
    (([1, 2, 3] : Bytes).take 5 ≠ bDfuSe ∧
      extract [1, 2, 3] = .ok [(0, extract_raw_binary [1, 2, 3])]) :=
  ⟨⟨by decide, (extract_dispatch [68, 102, 117, 83, 101, 9]).1 (by decide)⟩,
   ⟨by decide, (extract_dispatch [1, 2, 3]).2.1 (by decide)⟩⟩

/-- Claim C9: on the plain-DFU path `extract` performs no suffix
validation at all — for every buffer whose first 5 bytes are not
b"DfuSe" (including buffers shorter than 16 bytes and buffers with a
wrong trailing signature) it succeeds with
`[(0, buffer[0 : max 0 (L-16)])]`; in particular a buffer of length
at most 16 yields one pair with an empty payload rather than an error. -/
theorem extract_no_suffix_validation (data : Bytes) (h : data.take 5 ≠ bDfuSe) :
    extract data = .ok [(0, data.take (data.length - 16))] ∧
    (data.length ≤ 16 → extract data = .ok [(0, ([] : Bytes))]) := by
  have hmain : extract data = .ok [(0, data.take (data.length - 16))] := by
    unfold extract; rw [if_neg h]; rfl
  refine ⟨hmain, fun hle => ?_⟩
  rw [hmain]
  have hz : data.length - 16 = 0 := by omega
  rw [hz]
  simp

/-- Witness for C9 on a 3-byte buffer with a wrong suffix signature:
one pair, empty payload, no error. -/
theorem extract_no_suffix_validation_witness :
    (([1, 2, 3] : Bytes).take 5 ≠ bDfuSe) ∧
    extract [9, 9, 9] = .ok [(0, ([] : Bytes))] ∧
    ([9, 9, 9] : Bytes).length ≤ 16 :=
  ⟨by decide, (extract_no_suffix_validation [9, 9, 9] (by decide)).2 (by decide), by decide⟩

/-- Reducing a bind whose left side is `Except.ok`. -/
theorem ok_bind {α β : Type} (v : α) (f : α → Except PyError β) :
    (Except.ok v : Except PyError α).bind f = f v := rfl

/-- Reducing a bind whose left side is `Except.error`. -/
theorem err_bind {α β : Type} (e : PyError) (f : α → Except PyError β) :
    (Except.error e : Except PyError α).bind f = .error e := rfl

/-- The length of a Python slice. -/
theorem length_slice (l : Bytes) (a b : Nat) :
    (slice l a b).length = min (b - a) (l.length - a) := by
  simp [slice]

/-- Reading inside a slice reads the underlying buffer. -/
theorem getD_slice (l : Bytes) (a b i : Nat) (h : i < b - a) :
    (slice l a b).getD i 0 = l.getD (a + i) 0 := by
  simp [slice, List.getD_eq_getElem?_getD, List.getElem?_take_of_lt h, List.getElem?_drop]

/-- Reading inside a take reads the underlying buffer. -/
theorem getD_take (l : Bytes) (n i : Nat) (h : i < n) :
    (l.take n).getD i 0 = l.getD i 0 := by
  simp [List.getD_eq_getElem?_getD, List.getElem?_take_of_lt h]

/-- `unpackLE16` on a buffer of the right size. -/
theorem unpackLE16_of_len (b : Bytes) (h : b.length = 2) :
    unpackLE16 b = .ok (b.getD 0 0 + 256 * b.getD 1 0) := by
  simp [unpackLE16, h]

/-- `unpackLE32` on a buffer of the right size. -/
theorem unpackLE32_of_len (b : Bytes) (h : b.length = 4) :
    unpackLE32 b = .ok (b.getD 0 0 + 256 * b.getD 1 0 + 65536 * b.getD 2 0 +
      16777216 * b.getD 3 0) := by
  simp [unpackLE32, h]

/-- `pyIndex` within bounds. -/
theorem pyIndex_of_lt (l : Bytes) (i : Nat) (h : i < l.length) :
    pyIndex l i = .ok (l.getD i 0) := by
  simp [pyIndex, List.getElem?_eq_getElem h, List.getD_eq_getElem?_getD]

/-- `unpackLE16` of an in-bounds 2-byte slice. -/
theorem unpackLE16_slice (l : Bytes) (a b : Nat) (hb : b = a + 2) (h : b ≤ l.length) :
    unpackLE16 (slice l a b) = .ok (l.getD a 0 + 256 * l.getD (a + 1) 0) := by
  subst hb
  rw [unpackLE16_of_len _ (by rw [length_slice]; omega)]
  rw [getD_slice l a (a + 2) 0 (by omega), getD_slice l a (a + 2) 1 (by omega)]
  norm_num

/-- `unpackLE32` of an in-bounds 4-byte slice. -/
theorem unpackLE32_slice (l : Bytes) (a b : Nat) (hb : b = a + 4) (h : b ≤ l.length) :
    unpackLE32 (slice l a b) = .ok (l.getD a 0 + 256 * l.getD (a + 1) 0 +
      65536 * l.getD (a + 2) 0 + 16777216 * l.getD (a + 3) 0) := by
  subst hb
  rw [unpackLE32_of_len _ (by rw [length_slice]; omega)]
  rw [getD_slice l a (a + 4) 0 (by omega), getD_slice l a (a + 4) 1 (by omega),
      getD_slice l a (a + 4) 2 (by omega), getD_slice l a (a + 4) 3 (by omega)]
  norm_num

/-- What `parse_suffix_fields` computes on a 16-byte buffer: every field
decoded little-endian, then the signature check. -/
theorem parse_suffix_fields_of_len (s : Bytes) (hs : s.length = 16) :
    parse_suffix_fields s =
      if slice s 8 11 ≠ bUFD then .error .invalidDfuSignature
      else .ok { bcdDevice := s.getD 0 0 + 256 * s.getD 1 0,
                 idProduct := s.getD 2 0 + 256 * s.getD 3 0,
                 idVendor := s.getD 4 0 + 256 * s.getD 5 0,
                 bcdDFU := s.getD 6 0 + 256 * s.getD 7 0,
                 ucDfuSignature := slice s 8 11,
                 bLength := s.getD 11 0,
                 dwCRC := s.getD 12 0 + 256 * s.getD 13 0 + 65536 * s.getD 14 0 +
                   16777216 * s.getD 15 0 } := by
  unfold parse_suffix_fields
  rw [unpackLE16_slice s 0 2 rfl (by omega),
      unpackLE16_slice s 2 4 rfl (by omega),
      unpackLE16_slice s 4 6 rfl (by omega),
      unpackLE16_slice s 6 8 rfl (by omega),
      pyIndex_of_lt s 11 (by omega),
      unpackLE32_slice s 12 16 rfl (by omega)]
  simp only [ok_bind]

/-- What `parse_prefix_fields` computes on an 11-byte buffer. -/
theorem parse_prefix_fields_of_len (p : Bytes) (hp : p.length = 11) :
    parse_prefix_fields p =
      if slice p 0 5 ≠ bDfuSe then .ok none
      else .ok (some { szSignature := slice p 0 5, bVersion := p.getD 5 0,
                       dwImageSize := p.getD 6 0 + 256 * p.getD 7 0 + 65536 * p.getD 8 0 +
                         16777216 * p.getD 9 0,
                       bTargets := p.getD 10 0 }) := by
  unfold parse_prefix_fields
  rw [pyIndex_of_lt p 5 (by omega),
      unpackLE32_slice p 6 10 rfl (by omega),
      pyIndex_of_lt p 10 (by omega)]
  simp only [ok_bind]

/-- Taking few enough bytes from an append stays in the left part. -/
theorem take_append_of_le (l₁ l₂ : Bytes) (n : Nat) (h : n ≤ l₁.length) :
    (l₁ ++ l₂).take n = l₁.take n := by
  rw [List.take_append_eq_append_take, Nat.sub_eq_zero_of_le h, List.take_zero,
      List.append_nil]

/-- A slice that starts exactly where the right part of an append starts. -/
theorem slice_append_gen (A B : Bytes) (a b k : Nat) (ha : A.length = a) (hk : b - a = k) :
    slice (A ++ B) a b = B.take k := by
  subst ha
  subst hk
  show ((A ++ B).drop A.length).take (b - A.length) = B.take (b - A.length)
  rw [List.drop_left]

/-- The length of an encoded 32-bit field. -/
theorem length_encodeLE32 (n : Nat) : (encodeLE32 n).length = 4 := rfl

/-- Decoding an encoded 32-bit field gives the value modulo `2^32`. -/
theorem unpackLE32_encodeLE32 (n : Nat) :
    unpackLE32 (encodeLE32 n) = .ok (n % 4294967296) := by
  rw [show encodeLE32 n = [n % 256, n / 256 % 256, n / 65536 % 256, n / 16777216 % 256]
    from rfl]
  rw [unpackLE32_of_len [n % 256, n / 256 % 256, n / 65536 % 256, n / 16777216 % 256] rfl]
  congr 1
  show n % 256 + 256 * (n / 256 % 256) + 65536 * (n / 65536 % 256) +
    16777216 * (n / 16777216 % 256) = n % 4294967296
  omega

/-- The length of an encoded element record. -/
theorem length_encodeElement (addr : Nat) (p : Bytes) :
    (encodeElement addr p).length = 8 + p.length := by
  simp [encodeElement, encodeLE32]
  omega

/-- Unfolding the element serialisation one element at a time. -/
theorem encodeElems_cons (e : Nat × Bytes) (es : List (Nat × Bytes)) :
    encodeElems (e :: es) = encodeElement e.1 e.2 ++ encodeElems es := by
  simp [encodeElems]

/-- One iteration of the element loop on a well-placed encoded element:
the address and size fields decode, the payload is sliced out whole, and
the offset advances by `8 + size`. -/
theorem extract_elements_step (data A B : Bytes) (addr : Nat) (p : Bytes) (n : Nat)
    (acc : List (Nat × Bytes)) (hdata : data = A ++ (encodeElement addr p ++ B))
    (haddr : addr < 4294967296) (hp : p.length < 4294967296) :
    extract_elements data (n + 1) A.length acc =
      extract_elements data n (A.length + 8 + p.length) (acc ++ [(addr, p)]) := by
  have e1 : data = A ++ (encodeLE32 addr ++ (encodeLE32 p.length ++ (p ++ B))) := by
    rw [hdata]; simp [encodeElement, List.append_assoc]
  have h1 : unpackLE32 (slice data A.length (A.length + 4)) = .ok addr := by
    rw [e1, slice_append_gen _ _ _ _ 4 rfl (by omega),
        take_append_of_le _ _ _ (by simp [length_encodeLE32]),
        List.take_of_length_le (by simp [length_encodeLE32]),
        unpackLE32_encodeLE32, Nat.mod_eq_of_lt haddr]
  have e2 : data = (A ++ encodeLE32 addr) ++ (encodeLE32 p.length ++ (p ++ B)) := by
    rw [hdata]; simp [encodeElement, List.append_assoc]
  have h2 : unpackLE32 (slice data (A.length + 4) (A.length + 8)) = .ok p.length := by
    rw [e2, slice_append_gen _ _ _ _ 4 (by simp [length_encodeLE32]) (by omega),
        take_append_of_le _ _ _ (by simp [length_encodeLE32]),
        List.take_of_length_le (by simp [length_encodeLE32]),
        unpackLE32_encodeLE32, Nat.mod_eq_of_lt hp]
  have e3 : data = ((A ++ encodeLE32 addr) ++ encodeLE32 p.length) ++ (p ++ B) := by
    rw [hdata]; simp [encodeElement, List.append_assoc]
  have h3 : slice data (A.length + 8) (A.length + 8 + p.length) = p := by
    rw [e3, slice_append_gen _ _ _ _ p.length (by simp [length_encodeLE32]) (by omega),
        List.take_left]
  simp only [extract_elements]
  rw [h1, ok_bind, h2, ok_bind, h3]

/-- The element loop consumes a whole encoded element list, appending
exactly its elements and advancing by exactly its serialised length. -/
theorem extract_elements_encode (es : List (Nat × Bytes)) :
    ∀ (A tail : Bytes) (off : Nat) (acc : List (Nat × Bytes)),
      off = A.length →
      (∀ e ∈ es, e.1 < 4294967296 ∧ e.2.length < 4294967296) →
      extract_elements (A ++ (encodeElems es ++ tail)) es.length off acc =
        .ok (off + (encodeElems es).length, acc ++ es) := by
  induction es with
  | nil =>
    intro A tail off acc hoff _
    simp [extract_elements, encodeElems]
  | cons e es ih =>
    intro A tail off acc hoff hwf
    subst hoff
    obtain ⟨addr, p⟩ := e
    rw [List.length_cons]
    rw [extract_elements_step (A ++ (encodeElems ((addr, p) :: es) ++ tail)) A
      (encodeElems es ++ tail) addr p es.length acc
      (by simp [encodeElems_cons, List.append_assoc])
      (hwf (addr, p) (by simp)).1 (hwf (addr, p) (by simp)).2]
    have hdata' : A ++ (encodeElems ((addr, p) :: es) ++ tail) =
        (A ++ encodeElement addr p) ++ (encodeElems es ++ tail) := by
      simp [encodeElems_cons, List.append_assoc]
    rw [hdata']
    rw [ih (A ++ encodeElement addr p) tail (A.length + 8 + p.length) (acc ++ [(addr, p)])
      (by simp only [List.length_append, length_encodeElement]; omega)
      (fun e he => hwf e (by simp [he]))]
    congr 1
    simp only [Prod.mk.injEq]
    refine ⟨?_, ?_⟩
    · rw [encodeElems_cons]
      simp only [List.length_append, length_encodeElement]
      omega
    · simp

/-- One iteration of the target loop on a well-placed encoded target:
the b"Target" signature check passes, the header fields decode, the
offset advances by 274, and the element loop consumes the target's
elements. -/
theorem extract_targets_step (data A B : Bytes) (t : TargetSpec) (n : Nat)
    (acc : List (Nat × Bytes)) (hdata : data = A ++ (encodeTarget t ++ B))
    (hmid : t.mid.length = 260)
    (hcount : t.elems.length < 4294967296)
    (helems : ∀ e ∈ t.elems, e.1 < 4294967296 ∧ e.2.length < 4294967296) :
    extract_targets_loop data (n + 1) A.length acc =
      extract_targets_loop data n (A.length + 274 + (encodeElems t.elems).length)
        (acc ++ t.elems) := by
  have e0 : data = A ++ ((bTarget ++ (t.mid ++ (encodeLE32 t.tsize ++
      encodeLE32 t.elems.length))) ++ (encodeElems t.elems ++ B)) := by
    rw [hdata]; simp [encodeTarget, List.append_assoc]
  have hH : (bTarget ++ (t.mid ++ (encodeLE32 t.tsize ++
      encodeLE32 t.elems.length))).length = 274 := by
    simp only [List.length_append, length_encodeLE32, hmid, bTarget, List.length_cons,
      List.length_nil]
  have hpfx : slice data A.length (A.length + 274) =
      bTarget ++ (t.mid ++ (encodeLE32 t.tsize ++ encodeLE32 t.elems.length)) := by
    rw [e0, slice_append_gen _ _ _ _ 274 rfl (by omega),
        take_append_of_le _ _ _ (by omega),
        List.take_of_length_le (by omega)]
  have hsig : slice (bTarget ++ (t.mid ++ (encodeLE32 t.tsize ++
      encodeLE32 t.elems.length))) 0 6 = bTarget := by
    show ((bTarget ++ _).drop 0).take (6 - 0) = bTarget
    rw [List.drop_zero, take_append_of_le _ _ _ (by simp [bTarget])]
    decide
  have h266 : unpackLE32 (slice (bTarget ++ (t.mid ++ (encodeLE32 t.tsize ++
      encodeLE32 t.elems.length))) 266 270) = .ok (t.tsize % 4294967296) := by
    have e266 : bTarget ++ (t.mid ++ (encodeLE32 t.tsize ++ encodeLE32 t.elems.length)) =
        (bTarget ++ t.mid) ++ (encodeLE32 t.tsize ++ encodeLE32 t.elems.length) := by
      simp [List.append_assoc]
    rw [e266, slice_append_gen _ _ _ _ 4
          (by simp only [List.length_append, hmid, bTarget, List.length_cons,
            List.length_nil])
          (by omega),
        take_append_of_le _ _ _ (by simp [length_encodeLE32]),
        List.take_of_length_le (by simp [length_encodeLE32]),
        unpackLE32_encodeLE32]
  have h270 : unpackLE32 (slice (bTarget ++ (t.mid ++ (encodeLE32 t.tsize ++
      encodeLE32 t.elems.length))) 270 274) = .ok t.elems.length := by
    have e270 : bTarget ++ (t.mid ++ (encodeLE32 t.tsize ++ encodeLE32 t.elems.length)) =
        ((bTarget ++ t.mid) ++ encodeLE32 t.tsize) ++ encodeLE32 t.elems.length := by
      simp [List.append_assoc]
    rw [e270, slice_append_gen _ _ _ _ 4
          (by simp only [List.length_append, hmid, length_encodeLE32, bTarget,
            List.length_cons, List.length_nil])
          (by omega),
        List.take_of_length_le (by simp [length_encodeLE32]),
        unpackLE32_encodeLE32, Nat.mod_eq_of_lt hcount]
  have hee : extract_elements data t.elems.length (A.length + 274) acc =
      .ok (A.length + 274 + (encodeElems t.elems).length, acc ++ t.elems) := by
    have eAH : data = (A ++ (bTarget ++ (t.mid ++ (encodeLE32 t.tsize ++
        encodeLE32 t.elems.length)))) ++ (encodeElems t.elems ++ B) := by
      rw [e0]; simp [List.append_assoc]
    rw [eAH]
    exact extract_elements_encode t.elems _ B (A.length + 274) acc
      (by simp only [List.length_append, hH]) helems
  simp only [extract_targets_loop]
  rw [hpfx]
  rw [if_neg (not_not_intro hsig)]
  rw [pyIndex_of_lt _ 6 (by omega), ok_bind, h266, ok_bind, h270, ok_bind, hee, ok_bind]

/-- The target loop consumes a whole encoded target list, appending
exactly its elements in file order and advancing past its serialised
bytes, with the remaining iteration count decreased by the number of
targets consumed. -/
theorem extract_targets_loop_encode (ts : List TargetSpec) :
    ∀ (m c : Nat) (A tail : Bytes) (off : Nat) (acc : List (Nat × Bytes)),
      c = ts.length + m → off = A.length → WFTargets ts →
      extract_targets_loop (A ++ (encodeTargets ts ++ tail)) c off acc =
        extract_targets_loop (A ++ (encodeTargets ts ++ tail)) m
          (off + (encodeTargets ts).length) (acc ++ flatElems ts) := by
  induction ts with
  | nil =>
    intro m c A tail off acc hc hoff _
    subst hc
    simp [encodeTargets, flatElems]
  | cons t ts ih =>
    intro m c A tail off acc hc hoff hwf
    subst hc
    subst hoff
    have hwft := hwf t (by simp)
    have e0 : A ++ (encodeTargets (t :: ts) ++ tail) =
        A ++ (encodeTarget t ++ (encodeTargets ts ++ tail)) := by
      simp [encodeTargets, List.append_assoc]
    rw [e0]
    rw [show (t :: ts).length + m = (ts.length + m) + 1 by simp [List.length_cons]; omega]
    rw [extract_targets_step _ A (encodeTargets ts ++ tail) t (ts.length + m) acc rfl
      hwft.1 hwft.2.1 hwft.2.2]
    have e1 : A ++ (encodeTarget t ++ (encodeTargets ts ++ tail)) =
        (A ++ encodeTarget t) ++ (encodeTargets ts ++ tail) := by
      simp [List.append_assoc]
    rw [e1]
    rw [ih m (ts.length + m) (A ++ encodeTarget t) tail
      (A.length + 274 + (encodeElems t.elems).length) (acc ++ t.elems) rfl
      (by simp only [List.length_append, encodeTarget, length_encodeLE32, hwft.1, bTarget,
        List.length_cons, List.length_nil]; omega)
      (fun u hu => hwf u (by simp [hu]))]
    congr 1
    · simp only [encodeTargets, List.map_cons, List.flatten_cons, List.length_append,
        encodeTarget, length_encodeLE32, hwft.1, bTarget, List.length_cons, List.length_nil]
      omega
    · simp [flatElems, List.append_assoc]

/-- The first 5 bytes of a buffer laid out as an 11-byte DfuSe header
followed by anything are the b"DfuSe" signature. -/
theorem take5_header (vb imgSize tc : Nat) (Q : Bytes) :
    ((bDfuSe ++ ([vb] ++ (encodeLE32 imgSize ++ [tc]))) ++ Q).take 5 = bDfuSe := by
  rw [take_append_of_le _ _ _
      (by simp only [List.length_append, length_encodeLE32, bDfuSe, List.length_cons,
        List.length_nil]; omega),
      take_append_of_le _ _ _ (by simp [bDfuSe])]
  decide

/-- `parse_prefix_fields` on an 11-byte DfuSe header decodes each field. -/
theorem parse_prefix_fields_header (vb imgSize tc : Nat) :
    parse_prefix_fields (bDfuSe ++ ([vb] ++ (encodeLE32 imgSize ++ [tc]))) =
      .ok (some { szSignature := bDfuSe, bVersion := vb,
                  dwImageSize := imgSize % 256 + 256 * (imgSize / 256 % 256) +
                    65536 * (imgSize / 65536 % 256) + 16777216 * (imgSize / 16777216 % 256),
                  bTargets := tc }) := rfl

/-- `parse_prefix` on a buffer laid out as an 11-byte DfuSe header
followed by at least 16 more bytes. -/
theorem parse_prefix_header (vb imgSize tc : Nat) (Q : Bytes) (hQ : 16 ≤ Q.length) :
    parse_prefix ((bDfuSe ++ ([vb] ++ (encodeLE32 imgSize ++ [tc]))) ++ Q) =
      .ok (some { szSignature := bDfuSe, bVersion := vb,
                  dwImageSize := imgSize % 256 + 256 * (imgSize / 256 % 256) +
                    65536 * (imgSize / 65536 % 256) + 16777216 * (imgSize / 16777216 % 256),
                  bTargets := tc }) := by
  have hP : (bDfuSe ++ ([vb] ++ (encodeLE32 imgSize ++ [tc]))).length = 11 := by
    simp only [List.length_append, length_encodeLE32, bDfuSe, List.length_cons,
      List.length_nil]
  unfold parse_prefix DFU_PREFIX_LENGTH DFU_SUFFIX_LENGTH
  rw [if_neg (by simp only [List.length_append, hP]; omega)]
  rw [List.take_left' hP]
  exact parse_prefix_fields_header vb imgSize tc

/-- `extract` on a buffer laid out as an 11-byte DfuSe header followed
by at least 16 more bytes enters the target walk with the declared
target count, starting at offset 11 with an empty accumulator. -/
theorem extract_header (vb imgSize tc : Nat) (Q : Bytes) (hQ : 16 ≤ Q.length) :
    extract ((bDfuSe ++ ([vb] ++ (encodeLE32 imgSize ++ [tc]))) ++ Q) =
      extract_targets_loop ((bDfuSe ++ ([vb] ++ (encodeLE32 imgSize ++ [tc]))) ++ Q)
        tc 11 [] := by
  unfold extract
  rw [if_pos (take5_header vb imgSize tc Q)]
  unfold extract_dfuse_targets
  rw [ parse_prefix_header vb imgSize tc Q hQ]
  rfl

/-- The shared description of `extract` on a well-formed DfuSe buffer:
it succeeds with exactly the elements of all targets, in file order. -/
theorem extract_encodeDfuSe (vb imgSize : Nat) (ts : List TargetSpec) (rest : Bytes)
    (hwf : WFTargets ts) (hrest : 16 ≤ rest.length) :
    extract (encodeDfuSe vb imgSize ts rest) = .ok (flatElems ts) := by
  have hP : (bDfuSe ++ ([vb] ++ (encodeLE32 imgSize ++ [ts.length]))).length = 11 := by
    simp only [List.length_append, length_encodeLE32, bDfuSe, List.length_cons,
      List.length_nil]
  have e : encodeDfuSe vb imgSize ts rest =
      (bDfuSe ++ ([vb] ++ (encodeLE32 imgSize ++ [ts.length]))) ++
        (encodeTargets ts ++ rest) := by
    simp [encodeDfuSe, List.append_assoc]
  rw [e, extract_header vb imgSize ts.length (encodeTargets ts ++ rest)
    (by simp only [List.length_append]; omega)]
  rw [extract_targets_loop_encode ts 0 ts.length
    (bDfuSe ++ ([vb] ++ (encodeLE32 imgSize ++ [ts.length]))) rest 11 []
    (by omega) hP.symm hwf]
  simp [extract_targets_loop]

/-- Claim C5: `parse_suffix` fails with the too-small error exactly on
buffers shorter than 16 bytes. -/
theorem parse_suffix_small_iff (data : Bytes) :
    (data.length < 16 → parse_suffix data = .error .suffixTooSmall) ∧
    (16 ≤ data.length → parse_suffix data ≠ .error .suffixTooSmall) := by
  constructor
  · intro h
    unfold parse_suffix DFU_SUFFIX_LENGTH
    rw [if_pos h]
  · intro h
    unfold parse_suffix DFU_SUFFIX_LENGTH
    rw [if_neg (by omega)]
    rw [ parse_suffix_fields_of_len _ (by rw [List.length_drop]; omega)]
    split
    · exact fun hc => PyError.noConfusion (Except.error.inj hc)
    · exact fun hc => Except.noConfusion hc

/-- Witness for C5: a 3-byte buffer fails with the too-small error, a
16-byte buffer does not. -/
theorem parse_suffix_small_iff_witness :
    (([0, 0, 0] : Bytes).length < 16 ∧ parse_suffix [0, 0, 0] = .error .suffixTooSmall) ∧
    (16 ≤ ([0, 0, 0, 0, 0, 0, 0, 0, 0, 0, 0, 0, 0, 0, 0, 0] : Bytes).length ∧
      parse_suffix [0, 0, 0, 0, 0, 0, 0, 0, 0, 0, 0, 0, 0, 0, 0, 0] ≠
        .error .suffixTooSmall) :=
  ⟨⟨by decide, (parse_suffix_small_iff [0, 0, 0]).1 (by decide)⟩,
   ⟨by decide,
    (parse_suffix_small_iff [0, 0, 0, 0, 0, 0, 0, 0, 0, 0, 0, 0, 0, 0, 0, 0]).2 (by decide)⟩⟩

/-- Claim C6: on a buffer of length at least 16, `parse_suffix` fails
with the invalid-signature error exactly when bytes 8 to 10 of the
trailing 16-byte suffix differ from b"UFD", and otherwise succeeds with
every suffix field decoded little-endian from the suffix bytes. -/
theorem parse_suffix_signature_behaviour (data : Bytes) (h : 16 ≤ data.length) :
    (slice (data.drop (data.length - 16)) 8 11 ≠ bUFD →
      parse_suffix data = .error .invalidDfuSignature) ∧
    (slice (data.drop (data.length - 16)) 8 11 = bUFD →
      parse_suffix data = .ok
        { bcdDevice := (data.drop (data.length - 16)).getD 0 0 +
            256 * (data.drop (data.length - 16)).getD 1 0,
          idProduct := (data.drop (data.length - 16)).getD 2 0 +
            256 * (data.drop (data.length - 16)).getD 3 0,
          idVendor := (data.drop (data.length - 16)).getD 4 0 +
            256 * (data.drop (data.length - 16)).getD 5 0,
          bcdDFU := (data.drop (data.length - 16)).getD 6 0 +
            256 * (data.drop (data.length - 16)).getD 7 0,
          ucDfuSignature := slice (data.drop (data.length - 16)) 8 11,
          bLength := (data.drop (data.length - 16)).getD 11 0,
          dwCRC := (data.drop (data.length - 16)).getD 12 0 +
            256 * (data.drop (data.length - 16)).getD 13 0 +
            65536 * (data.drop (data.length - 16)).getD 14 0 +
            16777216 * (data.drop (data.length - 16)).getD 15 0 }) := by
  have hps : parse_suffix data = parse_suffix_fields (data.drop (data.length - 16)) := by
    unfold parse_suffix DFU_SUFFIX_LENGTH
    rw [if_neg (by omega)]
  rw [hps, parse_suffix_fields_of_len _ (by rw [List.length_drop]; omega)]
  constructor
  · intro hc
    rw [if_pos hc]
  · intro hc
    rw [if_neg (not_not_intro hc)]

/-- Witness for C6: a 16-byte all-zero buffer has a wrong suffix
signature and fails; a 16-byte buffer whose bytes 8 to 10 are b"UFD"
succeeds with the little-endian field values. -/
theorem parse_suffix_signature_behaviour_witness :
    (16 ≤ ([0, 0, 0, 0, 0, 0, 0, 0, 0, 0, 0, 0, 0, 0, 0, 0] : Bytes).length ∧
      slice (([0, 0, 0, 0, 0, 0, 0, 0, 0, 0, 0, 0, 0, 0, 0, 0] : Bytes).drop
        (([0, 0, 0, 0, 0, 0, 0, 0, 0, 0, 0, 0, 0, 0, 0, 0] : Bytes).length - 16)) 8 11 ≠ bUFD ∧
      parse_suffix [0, 0, 0, 0, 0, 0, 0, 0, 0, 0, 0, 0, 0, 0, 0, 0] =
        .error .invalidDfuSignature) ∧
    (16 ≤ ([1, 0, 2, 0, 3, 0, 4, 0, 85, 70, 68, 7, 5, 0, 0, 0] : Bytes).length ∧
      slice (([1, 0, 2, 0, 3, 0, 4, 0, 85, 70, 68, 7, 5, 0, 0, 0] : Bytes).drop
        (([1, 0, 2, 0, 3, 0, 4, 0, 85, 70, 68, 7, 5, 0, 0, 0] : Bytes).length - 16)) 8 11 = bUFD ∧
      parse_suffix [1, 0, 2, 0, 3, 0, 4, 0, 85, 70, 68, 7, 5, 0, 0, 0] =
        .ok { bcdDevice := 1, idProduct := 2, idVendor := 3, bcdDFU := 4,
              ucDfuSignature := [85, 70, 68], bLength := 7, dwCRC := 5 }) :=
  ⟨⟨by decide, by decide,
    (parse_suffix_signature_behaviour [0, 0, 0, 0, 0, 0, 0, 0, 0, 0, 0, 0, 0, 0, 0, 0]
      (by decide)).1 (by decide)⟩,
   ⟨by decide, by decide,
    (parse_suffix_signature_behaviour [1, 0, 2, 0, 3, 0, 4, 0, 85, 70, 68, 7, 5, 0, 0, 0]
      (by decide)).2 (by decide)⟩⟩

/-- Claim C7: `parse_prefix` fails with the too-small error on buffers
shorter than 27 bytes; on longer buffers it returns "absent" (`none`)
without failing when the first 5 bytes differ from b"DfuSe", and
otherwise the prefix record with the version byte at offset 5, the
image size decoded as a little-endian 32-bit integer from bytes 6 to 9,
and the target count byte at offset 10. -/
theorem parse_prefix_behaviour (data : Bytes) :
    (data.length < 27 → parse_prefix data = .error .prefixTooSmall) ∧
    (27 ≤ data.length → data.take 5 ≠ bDfuSe → parse_prefix data = .ok none) ∧
    (27 ≤ data.length → data.take 5 = bDfuSe →
      parse_prefix data = .ok (some
        { szSignature := data.take 5,
          bVersion := data.getD 5 0,
          dwImageSize := data.getD 6 0 + 256 * data.getD 7 0 + 65536 * data.getD 8 0 +
            16777216 * data.getD 9 0,
          bTargets := data.getD 10 0 })) := by
  have hsl : slice (data.take 11) 0 5 = data.take 5 := by
    rw [slice, List.drop_zero, List.take_take]
    norm_num
  refine ⟨fun h => ?_, fun h hsig => ?_, fun h hsig => ?_⟩
  · unfold parse_prefix DFU_PREFIX_LENGTH DFU_SUFFIX_LENGTH
    rw [if_pos (by omega)]
  · unfold parse_prefix DFU_PREFIX_LENGTH DFU_SUFFIX_LENGTH
    rw [if_neg (by omega)]
    rw [ parse_prefix_fields_of_len _ (by rw [List.length_take]; omega)]
    rw [hsl, if_pos hsig]
  · unfold parse_prefix DFU_PREFIX_LENGTH DFU_SUFFIX_LENGTH
    rw [if_neg (by omega)]
    rw [ parse_prefix_fields_of_len _ (by rw [List.length_take]; omega)]
    rw [hsl, if_neg (not_not_intro hsig)]
    rw [getD_take data 11 5 (by omega), getD_take data 11 6 (by omega),
        getD_take data 11 7 (by omega), getD_take data 11 8 (by omega),
        getD_take data 11 9 (by omega), getD_take data 11 10 (by omega)]

/-- Witness for C7: a 1-byte buffer is too small; a 27-byte buffer not
starting with b"DfuSe" gives "absent"; a 27-byte DfuSe-signed buffer
gives the decoded prefix record. -/
theorem parse_prefix_behaviour_witness :
    (([0] : Bytes).length < 27 ∧ parse_prefix [0] = .error .prefixTooSmall) ∧
    (27 ≤ ([0, 0, 0, 0, 0, 0, 0, 0, 0, 0, 0, 0, 0, 0, 0, 0, 0, 0, 0, 0, 0, 0, 0, 0, 0, 0,
        0] : Bytes).length ∧
      parse_prefix [0, 0, 0, 0, 0, 0, 0, 0, 0, 0, 0, 0, 0, 0, 0, 0, 0, 0, 0, 0, 0, 0, 0, 0,
        0, 0, 0] = .ok none) ∧
    (27 ≤ ([68, 102, 117, 83, 101, 7, 9, 0, 0, 0, 2, 0, 0, 0, 0, 0, 0, 0, 0, 0, 0, 0, 0, 0,
        0, 0, 0] : Bytes).length ∧
      parse_prefix [68, 102, 117, 83, 101, 7, 9, 0, 0, 0, 2, 0, 0, 0, 0, 0, 0, 0, 0, 0, 0,
        0, 0, 0, 0, 0, 0] =
        .ok (some { szSignature := [68, 102, 117, 83, 101], bVersion := 7,
                    dwImageSize := 9, bTargets := 2 })) :=
  ⟨⟨by decide, (parse_prefix_behaviour [0]).1 (by decide)⟩,
   ⟨by decide,
    (parse_prefix_behaviour [0, 0, 0, 0, 0, 0, 0, 0, 0, 0, 0, 0, 0, 0, 0, 0, 0, 0, 0, 0, 0,
      0, 0, 0, 0, 0, 0]).2.1 (by decide) (by decide)⟩,
   ⟨by decide,
    (parse_prefix_behaviour [68, 102, 117, 83, 101, 7, 9, 0, 0, 0, 2, 0, 0, 0, 0, 0, 0, 0,
      0, 0, 0, 0, 0, 0, 0, 0, 0]).2.2 (by decide) (by decide)⟩⟩

/-- Claim C2: on a well-formed DfuSe buffer (b"DfuSe" signature, each
target header signed b"Target", geometry fields consistent with the
layout), `extract` returns one (address, payload) pair per element
across all targets, in file order: each address is the little-endian
32-bit field at its element's start, each payload is exactly the `size`
bytes after the 8-byte element header, and the walk advances past each
274-byte target header and each `8 + size`-byte element, as expressed
by the serialisation `encodeDfuSe`. -/
theorem extract_dfuse_wellformed (vb imgSize : Nat) (ts : List TargetSpec) (rest : Bytes)
    (hwf : WFTargets ts) (hrest : 16 ≤ rest.length) :
    extract (encodeDfuSe vb imgSize ts rest) = .ok (flatElems ts) :=
  extract_encodeDfuSe vb imgSize ts rest hwf hrest

/-- Witness for C2, the synthetic 1-target 2-element buffer of the
specification: element A at address `0x08000000` with a 4-byte payload,
element B at address `0x08000004` with an 8-byte payload, extracted in
that order. -/
theorem extract_dfuse_wellformed_witness :
    WFTargets [⟨List.replicate 260 0, 12,
      [(134217728, [222, 173, 190, 239]), (134217732, [1, 2, 3, 4, 5, 6, 7, 8])]⟩] ∧
    16 ≤ (List.replicate 16 0 : Bytes).length ∧
    extract (encodeDfuSe 1 32 [⟨List.replicate 260 0, 12,
        [(134217728, [222, 173, 190, 239]), (134217732, [1, 2, 3, 4, 5, 6, 7, 8])]⟩]
      (List.replicate 16 0)) =
      .ok [(134217728, [222, 173, 190, 239]), (134217732, [1, 2, 3, 4, 5, 6, 7, 8])] :=
  ⟨by decide, by decide,
    extract_dfuse_wellformed 1 32 [⟨List.replicate 260 0, 12,
        [(134217728, [222, 173, 190, 239]), (134217732, [1, 2, 3, 4, 5, 6, 7, 8])]⟩]
      (List.replicate 16 0) (by decide) (by decide)⟩

/-- Claim C4: when the DfuSe walk reaches a target header whose 6-byte
signature differs from b"Target" — after any number of preceding
well-formed targets — `extract` fails with the invalid-target-signature
error carrying exactly the byte offset of that header. -/
theorem extract_corrupt_target_signature (vb imgSize tcount : Nat)
    (good : List TargetSpec) (bad rest : Bytes)
    (hwf : WFTargets good) (htc : good.length < tcount)
    (hbadlen : bad.length = 6) (hbad : bad ≠ bTarget) (hrest : 16 ≤ rest.length) :
    extract ((bDfuSe ++ ([vb] ++ (encodeLE32 imgSize ++ [tcount]))) ++
        (encodeTargets good ++ (bad ++ rest))) =
      .error (.invalidTargetSignature (11 + (encodeTargets good).length)) := by
  have hP : (bDfuSe ++ ([vb] ++ (encodeLE32 imgSize ++ [tcount]))).length = 11 := by
    simp only [List.length_append, length_encodeLE32, bDfuSe, List.length_cons,
      List.length_nil]
  rw [extract_header vb imgSize tcount _ (by simp only [List.length_append]; omega)]
  obtain ⟨k, hk⟩ : ∃ k, tcount = good.length + (k + 1) :=
    ⟨tcount - good.length - 1, by omega⟩
  rw [hk]
  rw [extract_targets_loop_encode good (k + 1) (good.length + (k + 1))
    (bDfuSe ++ ([vb] ++ (encodeLE32 imgSize ++ [good.length + (k + 1)])))
    (bad ++ rest) 11 [] rfl
    (by simp only [List.length_append, length_encodeLE32, bDfuSe, List.length_cons,
      List.length_nil])
    hwf]
  have hsl : slice ((bDfuSe ++ ([vb] ++ (encodeLE32 imgSize ++ [good.length + (k + 1)]))) ++
      (encodeTargets good ++ (bad ++ rest))) (11 + (encodeTargets good).length)
      (11 + (encodeTargets good).length + 274) = (bad ++ rest).take 274 := by
    have e2 : (bDfuSe ++ ([vb] ++ (encodeLE32 imgSize ++ [good.length + (k + 1)]))) ++
        (encodeTargets good ++ (bad ++ rest)) =
        ((bDfuSe ++ ([vb] ++ (encodeLE32 imgSize ++ [good.length + (k + 1)]))) ++
          encodeTargets good) ++ (bad ++ rest) := by
      simp [List.append_assoc]
    rw [e2, slice_append_gen _ _ _ _ 274
      (by simp only [List.length_append, length_encodeLE32, bDfuSe, List.length_cons,
        List.length_nil])
      (by omega)]
  have hsig6 : slice ((bad ++ rest).take 274) 0 6 = bad := by
    show ((((bad ++ rest).take 274).drop 0).take (6 - 0)) = bad
    rw [List.drop_zero, Nat.sub_zero, List.take_take,
        show min 6 274 = 6 from rfl, List.take_left' hbadlen]
  simp only [extract_targets_loop]
  rw [hsl, hsig6, if_pos hbad]

/-- Witness for C4: one well-formed target followed by a header whose
signature reads b"Targe\x00"; `extract` fails with the invalid-target
signature error at offset `11 + 283 = 294`. -/
theorem extract_corrupt_target_signature_witness :
    WFTargets [⟨List.replicate 260 0, 0, [(0, [1])]⟩] ∧
    ([84, 97, 114, 103, 101, 0] : Bytes) ≠ bTarget ∧
    extract ((bDfuSe ++ ([0] ++ (encodeLE32 0 ++ [2]))) ++
        (encodeTargets [⟨List.replicate 260 0, 0, [(0, [1])]⟩] ++
          ([84, 97, 114, 103, 101, 0] ++ List.replicate 16 0))) =
      .error (.invalidTargetSignature 294) :=
  ⟨by decide, by decide,
    extract_corrupt_target_signature 0 0 2 [⟨List.replicate 260 0, 0, [(0, [1])]⟩]
      [84, 97, 114, 103, 101, 0] (List.replicate 16 0)
      (by decide) (by decide) (by decide) (by decide) (by decide)⟩

/-- Claim C10: the extraction result does not depend on the metadata
fields of the DfuSe records — two well-formed buffers that differ only
in the prefix version byte, the prefix image-size field, and each
target's middle header bytes (altSetting, reserved, name) and declared
size field, but agree on every element, extract identically. -/
theorem extract_metadata_independent (vb vb' imgSize imgSize' : Nat)
    (ts ts' : List TargetSpec) (rest : Bytes)
    (hwf : WFTargets ts) (hwf' : WFTargets ts')
    (heq : ts.map (fun t => t.elems) = ts'.map (fun t => t.elems))
    (hrest : 16 ≤ rest.length) :
    extract (encodeDfuSe vb imgSize ts rest) =
      extract (encodeDfuSe vb' imgSize' ts' rest) := by
  rw [extract_encodeDfuSe vb imgSize ts rest hwf hrest,
      extract_encodeDfuSe vb' imgSize' ts' rest hwf' hrest]
  unfold flatElems
  rw [heq]

/-- Witness for C10: two buffers differing in version byte, image size,
target name bytes and declared target size, with identical elements,
produce identical extraction results. -/
theorem extract_metadata_independent_witness :
    WFTargets [⟨List.replicate 260 0, 4, [(7, [9])]⟩] ∧
    WFTargets [⟨List.replicate 260 5, 999, [(7, [9])]⟩] ∧
    extract (encodeDfuSe 1 3 [⟨List.replicate 260 0, 4, [(7, [9])]⟩]
        (List.replicate 16 0)) =
      extract (encodeDfuSe 2 4 [⟨List.replicate 260 5, 999, [(7, [9])]⟩]
        (List.replicate 16 0)) :=
  ⟨by decide, by decide,
    extract_metadata_independent 1 2 3 4 [⟨List.replicate 260 0, 4, [(7, [9])]⟩]
      [⟨List.replicate 260 5, 999, [(7, [9])]⟩] (List.replicate 16 0)
      (by decide) (by decide) (by decide) (by decide)⟩

/-- Claim C3 concerns behaviour the code does not have: on a DfuSe
buffer whose final element declares a size (100) exceeding the
remaining buffer (2 bytes), the source raises no error at all — Python
slicing clamps at the buffer end, so `extract` silently truncates the
payload to the 2 available bytes and succeeds.  There is no
truncated-data error anywhere in the source. -/
theorem extract_truncated_final_element :
    extract ((bDfuSe ++ ([1] ++ (encodeLE32 0 ++ [1]))) ++
      ((bTarget ++ (List.replicate 260 0 ++ (encodeLE32 0 ++ encodeLE32 1))) ++
        (encodeLE32 134217728 ++ (encodeLE32 100 ++ [170, 187])))) =
      .ok [(134217728, [170, 187])] := by
  rfl

end DFU
